import Mathlib

/-!
# Route handlers of the posts API

A shallow embedding of `routes/users.js` and `routes/posts.js`.

* A request field (`req.body.x`, `req.query.x`) is an optional string: `none` is
  JavaScript's `undefined` (the field is missing), `some s` is the string `s`.
* The document store is a pair of lists (users, posts); Mongoose calls become pure
  functions on it.  Object ids are strings already in their string form, so
  `ObjectId.toString()` and the cast of `req.user.id` are the identity.
* A handler is a function from the store and the request to an `Outcome`: the store
  afterwards, the plaintexts handed to `bcrypt.hash`, and what was sent
  (`res.json`, `next(appError(..))`, or an exception forwarded by `handleErrorAsync`).
* `validator.isEmail`, `bcrypt`, `jwt.sign`, the regular-expression engine and the
  schema validators are collaborators, passed in as `Collaborators`.
-/

namespace PostsApi

/-! ## JavaScript values -/

/-- A request field: `none` is `undefined`, `some s` a string. -/
abbrev Field := Option String

/-- JavaScript truthiness of a field: `!x` is true for `undefined` and for `""`. -/
def truthy : Field → Bool
  | none => false
  | some s => decide (s ≠ "")

/-- Exceptions that leave a handler body; `handleErrorAsync` forwards them to `next`. -/
inductive Thrown
  | typeError
  | syntaxError
  | validationError
  deriving DecidableEq, Repr

/-- Character class `[a-zA-Z]`. -/
def isAsciiLetter (c : Char) : Bool :=
  (decide ('a' ≤ c) && decide (c ≤ 'z')) || (decide ('A' ≤ c) && decide (c ≤ 'Z'))

/-- Character class `[0-9]`. -/
def isAsciiDigit (c : Char) : Bool :=
  decide ('0' ≤ c) && decide (c ≤ '9')

/-- Modelled from the spec: the `User` schema of models/usersModel (identity with
email, hashed password and display name). -/
structure User where
  id : String
  email : String
  password : String
  name : String
  deriving DecidableEq, Repr

/-- Modelled from the spec: the `Post` schema of models/postsModel (content string,
owning user reference, creation timestamp). -/
structure Post where
  id : String
  content : String
  user : String
  createdAt : Nat
  deriving DecidableEq, Repr

/-- The document store: the two collections. -/
structure Store where
  users : List User
  posts : List Post
  deriving DecidableEq, Repr

/-- The fields that `populate({path: "user", select: "name photo"})` keeps of the
referenced user (the spec's User has no photo, so only the id and the name). -/
structure UserView where
  id : String
  name : String
  deriving DecidableEq, Repr

/-- A post document whose `user` path has been populated: the document itself and
the referenced user, `none` when the reference does not resolve. -/
structure PopulatedPost where
  post : Post
  userDoc : Option UserView
  deriving DecidableEq, Repr

/-- The request body of `PATCH /posts/:id`, restricted to the paths of the Post
schema (Mongoose's strict mode drops every other key): a key that is absent is `none`. -/
structure PostPatch where
  content : Option String
  user : Option String
  createdAt : Option Nat
  deriving DecidableEq, Repr

/-- The external collaborators of the handlers. -/
structure Collaborators where
  /-- The function `validator.isEmail` on strings. -/
  isEmail : String → Bool
  /-- The function `bcrypt.hash(·, 12)`. -/
  bcryptHash : String → String
  /-- The function `bcrypt.compare(plain, hash)`. -/
  bcryptCompare : String → String → Bool
  /-- The token `jwt.sign` issues for a user id. -/
  jwtSign : String → String
  /-- The regular-expression engine on the patterns `newRegExp` does not decide
  itself: `none` when the pattern is a syntax error, otherwise its match predicate. -/
  regExp : String → Option (String → Bool)
  /-- The Post schema validators that `runValidators: true` runs on an update. -/
  validators : PostPatch → Bool

/-! ## Responses -/

/-- The JSON bodies the handlers send. -/
inductive Json
  /-- Body `{ posts }` of `GET /posts`. -/
  | listed (posts : List PopulatedPost)
  /-- Body `{ status: "success", post }` of `POST /posts`. -/
  | created (post : Post)
  /-- Body `{ status: "success", posts }` of `DELETE /posts`. -/
  | remaining (posts : List Post)
  /-- Body `{ status: "success", data: null }` of `DELETE /posts/:id`. -/
  | deleted
  /-- Body `{ status: "success", updatePost }` of `PATCH /posts/:id`. -/
  | updated (updatePost : Option Post)
  /-- Body sent by `generateSendJWT`: the user and the issued token. -/
  | signed (user : User) (token : String)
  deriving DecidableEq, Repr

/-- What a handler sends. -/
inductive Response
  /-- The call `next(appError(httpStatus, errMessage))`. -/
  | failed (httpStatus : Nat) (errMessage : String)
  /-- An exception thrown in the handler body, forwarded by `handleErrorAsync`. -/
  | rejected (e : Thrown)
  /-- The call `res.status(status).json(body)`. -/
  | json (status : Nat) (body : Json)
  deriving DecidableEq, Repr

/-- The result of running a handler. -/
structure Outcome where
  /-- The store after the handler. -/
  store : Store
  /-- The plaintexts passed to `bcrypt.hash`, in order. -/
  hashed : List String
  /-- What was sent. -/
  response : Response
  deriving DecidableEq, Repr

/-- Modelled from the spec: `appError` of service/appError, which builds the error
that the centralized error path reports with an HTTP status and a message.  The
users router passes the status as the string "400", the posts router as a number. -/
def appError (httpStatus : Nat) (errMessage : String) : Response :=
  .failed httpStatus errMessage

/-- Modelled from the spec: `generateSendJWT` of service/auth, which issues a signed
token scoped to the user's identity and sends it with the user under the given
status.  A `null` user has no identity to read, so the call throws. -/
def generateSendJWT (C : Collaborators) (user : Option User) (statusCode : Nat) : Response :=
  match user with
  | none => .rejected .typeError
  | some u => .json statusCode (.signed u (C.jwtSign u.id))

/-- `validator.isEmail(str)`: `assertString` throws on a non-string. -/
def isEmail (C : Collaborators) (str : Field) : Except Thrown Bool :=
  match str with
  | none => .error .typeError
  | some s => .ok (C.isEmail s)

/-! ## Store operations (Mongoose) -/

/-- `User.findOne({email})`: the first user with that email. -/
def findOne (s : Store) (email : String) : Option User :=
  s.users.find? (fun u => decide (u.email = email))

/-- Replace the first element that satisfies `p` by its image under `f`. -/
def updateFirst {α : Type} (p : α → Bool) (f : α → α) : List α → List α
  | [] => []
  | a :: as => if p a then f a :: as else a :: updateFirst p f as

/-- A Mongoose filter on posts: a key that is absent is `none`. -/
structure PostFilter where
  content : Option (String → Bool)
  user : Option String

/-- Whether a post satisfies every key of the filter. -/
def PostFilter.holds (f : PostFilter) (p : Post) : Bool :=
  (match f.content with
   | none => true
   | some re => re p.content) &&
  (match f.user with
   | none => true
   | some u => decide (p.user = u))

/-- `Object.assign(q, {"user": userId})`: sets the key `user` and keeps the others. -/
def assignUser (q : PostFilter) (userId : String) : PostFilter :=
  { q with user := some userId }

/-- `Post.find(filter)`. -/
def find (s : Store) (f : PostFilter) : List Post :=
  s.posts.filter f.holds

/-- `Post.deleteMany(filter)`. -/
def deleteMany (s : Store) (f : PostFilter) : Store :=
  { s with posts := s.posts.filter (fun p => !f.holds p) }

/-- `Post.findById(id)`. -/
def findById (s : Store) (id : String) : Option Post :=
  s.posts.find? (fun p => decide (p.id = id))

/-- `Post.findByIdAndDelete(id)`. -/
def findByIdAndDelete (s : Store) (id : String) : Store :=
  { s with posts := s.posts.eraseP (fun p => decide (p.id = id)) }

/-- `Post.create({user, content})` with the id and the timestamp the store assigns. -/
def createPost (s : Store) (newId : String) (now : Nat) (user content : String) : Store × Post :=
  let newPost : Post := { id := newId, content := content, user := user, createdAt := now }
  ({ s with posts := s.posts ++ [newPost] }, newPost)

/-- The update `$set` performs with the keys present in the patch. -/
def PostPatch.apply (d : PostPatch) (p : Post) : Post :=
  { p with
    content := d.content.getD p.content
    user := d.user.getD p.user
    createdAt := d.createdAt.getD p.createdAt }

/-- `Post.findByIdAndUpdate(id, data, {runValidators: true, new: true})`: the schema
validators run on the patch and a failure throws; otherwise the keys of the patch
are set on the post with that id and the document after the update is returned. -/
def findByIdAndUpdate (C : Collaborators) (s : Store) (id : String) (data : PostPatch) :
    Except Thrown (Store × Option Post) :=
  if C.validators data then
    .ok ({ s with posts := updateFirst (fun p => decide (p.id = id)) data.apply s.posts },
         (findById s id).map data.apply)
  else .error .validationError

/-- `.sort("createdAt")` is ascending by creation time, `.sort("-createdAt")` descending. -/
def sort (spec : String) (ps : List Post) : List Post :=
  if spec = "createdAt" then ps.insertionSort (fun a b => a.createdAt ≤ b.createdAt)
  else if spec = "-createdAt" then ps.insertionSort (fun a b => b.createdAt ≤ a.createdAt)
  else ps

/-- `.populate({path: "user", select: "name photo"})` on one document. -/
def populate (s : Store) (p : Post) : PopulatedPost :=
  { post := p
    userDoc := (s.users.find? (fun u => decide (u.id = p.user))).map
      (fun u => { id := u.id, name := u.name }) }

/-! ## Regular expressions -/

/-- A pattern character that stands for itself: an ASCII letter, a digit or a space. -/
def isPlainChar (c : Char) : Bool :=
  isAsciiLetter c || isAsciiDigit c || c == ' '

/-- Whether the parentheses of a pattern are matched, `depth` groups being open. -/
def parenBalanced : List Char → Nat → Bool
  | [], depth => depth == 0
  | c :: cs, depth =>
    if c == '(' then parenBalanced cs (depth + 1)
    else if c == ')' then depth != 0 && parenBalanced cs (depth - 1)
    else parenBalanced cs depth

/-- `new RegExp(source)` and the test of the pattern on a content.  A pattern of
plain characters only matches exactly the contents that contain it.  A pattern of
plain characters and parentheses whose parentheses are not matched is a SyntaxError
(unterminated group, unmatched `)`).  Every other pattern is left to the engine. -/
def newRegExp (C : Collaborators) (source : String) : Except Thrown (String → Bool) :=
  if source.toList.all isPlainChar then
    .ok (fun content => decide (source.toList <:+: content.toList))
  else if source.toList.all (fun c => isPlainChar c || c == '(' || c == ')')
      && !parenBalanced source.toList 0 then
    .error .syntaxError
  else
    match C.regExp source with
    | some re => .ok re
    | none => .error .syntaxError

/-! ## routes/users.js -/

/-- The body of `POST /users/sign_in`. -/
structure SignInBody where
  email : Field
  password : Field
  deriving DecidableEq, Repr

/-- The handler `router.post("/sign_in")`. -/
def sign_in (C : Collaborators) (s : Store) (body : SignInBody) : Outcome :=
  let email := body.email
  let password := body.password
  if !truthy email || !truthy password then
    ⟨s, [], appError 400 "帳號密碼不可為空"⟩
  else
    match email, password with
    | some em, some pw =>
      match findOne s em with
      | none => ⟨s, [], appError 400 "查詢不到此email"⟩
      | some user =>
        let auth := C.bcryptCompare pw user.password
        if !auth then
          ⟨s, [], appError 400 "您的密碼不正確"⟩
        else
          ⟨s, [], generateSendJWT C (some user) 200⟩
    | _, _ => ⟨s, [], .rejected .typeError⟩

/-- The query of `GET /posts`. -/
structure ListQuery where
  q : Field
  timeSort : Field
  deriving DecidableEq, Repr

/-- The handler `router.get('/')`, after `isAuth` has resolved the caller `userId`.
The store filters and sorts; the matched documents are populated afterwards. -/
def list (C : Collaborators) (s : Store) (userId : String) (query : ListQuery) : Outcome :=
  let timeSort := if query.timeSort = some "asc" then "createdAt" else "-createdAt"
  let q : Except Thrown PostFilter :=
    match query.q with
    | some source =>
      match newRegExp C source with
      | .ok re => .ok { content := some re, user := none }
      | .error e => .error e
    | none => .ok { content := none, user := none }
  match q with
  | .error e => ⟨s, [], .rejected e⟩
  | .ok q =>
    let posts := (sort timeSort (find s (assignUser q userId))).map (populate s)
    ⟨s, [], .json 200 (.listed posts)⟩

/-- The handler `router.post("/")`; `newId` and `now` are the id and the creation
time the store gives the new post. -/
def create (s : Store) (userId newId : String) (now : Nat) (content : Field) : Outcome :=
  match content with
  | none => ⟨s, [], appError 400 "你沒有填寫 content 資料"⟩
  | some c =>
    let (s1, newPost) := createPost s newId now userId c
    ⟨s1, [], .json 201 (.created newPost)⟩

/-- The handler `router.delete('/')`. -/
def deleteAll (s : Store) (userId originalUrl : String) : Outcome :=
  if originalUrl = "/posts" then
    let s1 := deleteMany s { content := none, user := some userId }
    let posts := find s1 { content := none, user := some userId }
    ⟨s1, [], .json 200 (.remaining posts)⟩
  else
    ⟨s, [], appError 400 "刪除全部的路由為\x27posts\x27而不是\x27posts/\x27，這是避免刪除單筆的錯誤操作"⟩

/-- The handler `router.delete('/:id')`. -/
def deleteOne (s : Store) (userId id : String) : Outcome :=
  match findById s id with
  | none => ⟨s, [], appError 404 "無此 post ID"⟩
  | some searchResult =>
    if searchResult.user ≠ userId then
      ⟨s, [], appError 400 "此 post ID並非屬於你！"⟩
    else
      ⟨findByIdAndDelete s id, [], .json 200 .deleted⟩

/-- The handler `router.patch('/:id')`. -/
def updateOne (C : Collaborators) (s : Store) (userId id : String) (data : PostPatch) : Outcome :=
  match findById s id with
  | none => ⟨s, [], appError 404 "無此 post ID"⟩
  | some searchResult =>
    if searchResult.user ≠ userId then
      ⟨s, [], appError 400 "此 post ID並非屬於你！"⟩
    else
      match findByIdAndUpdate C s id data with
      | .error e => ⟨s, [], .rejected e⟩
      | .ok (s1, updatePost) => ⟨s1, [], .json 200 (.updated updatePost)⟩

/-! ## Predicates used in the statements -/

/-- Collaborators for evaluating the handlers: an address is a string with an `@`,
the hash of `p` is `hash:p`, the token of an id is `jwt:id`, the engine knows no
pattern beyond those `newRegExp` decides, and the schema validators accept. -/
def sampleCollaborators : Collaborators :=
  { isEmail := fun s => s.toList.contains '@'
    bcryptHash := fun p => "hash:" ++ p
    bcryptCompare := fun p h => decide (h = "hash:" ++ p)
    jwtSign := fun id => "jwt:" ++ id
    regExp := fun _ => none
    validators := fun _ => true }

/-- A store with two users and three posts. -/
def sampleStore : Store :=
  { users := [⟨"u1", "al@example.com", "hash:abc12345", "Al"⟩,
              ⟨"u2", "bo@example.com", "hash:xyz98765", "Bo"⟩]
    posts := [⟨"p1", "hello", "u1", 5⟩, ⟨"p2", "world", "u1", 3⟩, ⟨"p3", "hello", "u2", 4⟩] }

/-! ## Order instances for the two sort keys -/

instance ascTotal : IsTotal Post (fun a b => a.createdAt ≤ b.createdAt) :=
  ⟨fun _ _ => Nat.le_total _ _⟩

instance ascTrans : IsTrans Post (fun a b => a.createdAt ≤ b.createdAt) :=
  ⟨fun _ _ _ h1 h2 => Nat.le_trans h1 h2⟩

instance descTotal : IsTotal Post (fun a b => b.createdAt ≤ a.createdAt) :=
  ⟨fun _ _ => Nat.le_total _ _⟩

instance descTrans : IsTrans Post (fun a b => b.createdAt ≤ a.createdAt) :=
  ⟨fun _ _ _ h1 h2 => Nat.le_trans h2 h1⟩

/-! ## Lemmas on the building blocks -/

theorem findOne_eq_none_iff (s : Store) (email : String) :
    findOne s email = none ↔ ∀ u ∈ s.users, u.email ≠ email := by
  simp [findOne]

theorem findOne_some (s : Store) (email : String) (u : User) (h : findOne s email = some u) :
    u ∈ s.users ∧ u.email = email := by
  unfold findOne at h
  exact ⟨List.mem_of_find?_eq_some h, by simpa using List.find?_some h⟩

/-- C8: `sign_in` sends a token under status 200 exactly when email and password are
non-empty, a user with that email is found and `bcrypt.compare` of the password with
the stored hash succeeds.  A missing or empty field gives the validation error, an
email no user has gives "查詢不到此email", a failed comparison gives "您的密碼不正確";
each of these is a 400 error that leaves the store alone and carries no token. -/
theorem sign_in_token_iff (C : Collaborators) (s : Store) (body : SignInBody) :
    ((∃ u t, (sign_in C s body).response = .json 200 (.signed u t)) ↔
      ∃ em pw u, body = ⟨some em, some pw⟩ ∧ em ≠ "" ∧ pw ≠ "" ∧ findOne s em = some u ∧
        C.bcryptCompare pw u.password = true) ∧
    (truthy body.email = false ∨ truthy body.password = false →
      sign_in C s body = ⟨s, [], .failed 400 "帳號密碼不可為空"⟩) ∧
    (∀ em pw, body = ⟨some em, some pw⟩ → em ≠ "" → pw ≠ "" →
      (∀ u ∈ s.users, u.email ≠ em) →
      sign_in C s body = ⟨s, [], .failed 400 "查詢不到此email"⟩) ∧
    (∀ em pw u, body = ⟨some em, some pw⟩ → em ≠ "" → pw ≠ "" → findOne s em = some u →
      C.bcryptCompare pw u.password = false →
      sign_in C s body = ⟨s, [], .failed 400 "您的密碼不正確"⟩) ∧
    (∀ em pw u, body = ⟨some em, some pw⟩ → em ≠ "" → pw ≠ "" → findOne s em = some u →
      C.bcryptCompare pw u.password = true →
      sign_in C s body = ⟨s, [], .json 200 (.signed u (C.jwtSign u.id))⟩) := by
  have h2 : truthy body.email = false ∨ truthy body.password = false →
      sign_in C s body = ⟨s, [], .failed 400 "帳號密碼不可為空"⟩ := by
    intro h
    rcases h with h | h <;> simp [sign_in, h, appError]
  have h3 : ∀ em pw, body = ⟨some em, some pw⟩ → em ≠ "" → pw ≠ "" →
      (∀ u ∈ s.users, u.email ≠ em) →
      sign_in C s body = ⟨s, [], .failed 400 "查詢不到此email"⟩ := by
    rintro em pw rfl he hp hn
    simp [sign_in, truthy, he, hp, (findOne_eq_none_iff s em).2 hn, appError]
  have h4 : ∀ em pw u, body = ⟨some em, some pw⟩ → em ≠ "" → pw ≠ "" → findOne s em = some u →
      C.bcryptCompare pw u.password = false →
      sign_in C s body = ⟨s, [], .failed 400 "您的密碼不正確"⟩ := by
    rintro em pw u rfl he hp hf hc
    simp [sign_in, truthy, he, hp, hf, hc, appError]
  have h5 : ∀ em pw u, body = ⟨some em, some pw⟩ → em ≠ "" → pw ≠ "" → findOne s em = some u →
      C.bcryptCompare pw u.password = true →
      sign_in C s body = ⟨s, [], .json 200 (.signed u (C.jwtSign u.id))⟩ := by
    rintro em pw u rfl he hp hf hc
    simp [sign_in, truthy, he, hp, hf, hc, generateSendJWT]
  refine ⟨⟨?_, ?_⟩, h2, h3, h4, h5⟩
  · rintro ⟨u, t, h⟩
    obtain ⟨email, password⟩ := body
    have hnone : ∀ b : SignInBody, b.email = none ∨ b.password = none →
        truthy b.email = false ∨ truthy b.password = false := by
      rintro b (hb | hb)
      · exact Or.inl (by rw [hb]; rfl)
      · exact Or.inr (by rw [hb]; rfl)
    obtain _ | em := email
    · rw [h2 (hnone _ (Or.inl rfl))] at h
      simp at h
    obtain _ | pw := password
    · rw [h2 (hnone _ (Or.inr rfl))] at h
      simp at h
    by_cases he : em = ""
    · rw [h2 (by simp [truthy, he])] at h
      simp at h
    by_cases hp : pw = ""
    · rw [h2 (by simp [truthy, hp])] at h
      simp at h
    cases hf : findOne s em with
    | none =>
      rw [h3 em pw rfl he hp ((findOne_eq_none_iff s em).1 hf)] at h
      simp at h
    | some v =>
      cases hc : C.bcryptCompare pw v.password with
      | false =>
        rw [h4 em pw v rfl he hp hf hc] at h
        simp at h
      | true => exact ⟨em, pw, v, rfl, he, hp, hf, hc⟩
  · rintro ⟨em, pw, u, hb, he, hp, hf, hc⟩
    exact ⟨u, C.jwtSign u.id, by rw [h5 em pw u hb he hp hf hc]⟩

/-- Witness for C8: the sample user al@example.com with a wrong password. -/
theorem sign_in_token_iff_witness :
    sign_in sampleCollaborators sampleStore ⟨some "al@example.com", some "wrong123"⟩ =
      ⟨sampleStore, [], .failed 400 "您的密碼不正確"⟩ :=
  (sign_in_token_iff sampleCollaborators sampleStore
      ⟨some "al@example.com", some "wrong123"⟩).2.2.2.1
    "al@example.com" "wrong123" ⟨"u1", "al@example.com", "hash:abc12345", "Al"⟩ rfl
    (by decide) (by decide) (by decide) (by decide)



/-! ## deleteOne, updateOne, deleteAll -/

/-- C2: when the id resolves to a post and the caller is not the post's owner, both
`deleteOne` and `updateOne` (with any patch body) answer with the ownership error
(400, "此 post ID並非屬於你！") and return the store they were given; the post is still
found under its id with the same content, owner and timestamp. -/
theorem non_owner_cannot_delete_or_update (C : Collaborators) (s : Store) (userId id : String)
    (data : PostPatch) (p : Post) (hp : findById s id = some p) (hne : userId ≠ p.user) :
    deleteOne s userId id = ⟨s, [], .failed 400 "此 post ID並非屬於你！"⟩ ∧
    updateOne C s userId id data = ⟨s, [], .failed 400 "此 post ID並非屬於你！"⟩ ∧
    findById (deleteOne s userId id).store id = some p ∧
    findById (updateOne C s userId id data).store id = some p := by
  have hd : deleteOne s userId id = ⟨s, [], .failed 400 "此 post ID並非屬於你！"⟩ := by
    simp [deleteOne, hp, Ne.symm hne, appError]
  have hu : updateOne C s userId id data = ⟨s, [], .failed 400 "此 post ID並非屬於你！"⟩ := by
    simp [updateOne, hp, Ne.symm hne, appError]
  refine ⟨hd, hu, ?_, ?_⟩
  · rw [hd]; exact hp
  · rw [hu]; exact hp

/-- Witness for C2: user u2 on post p1 of user u1 in the sample store. -/
theorem non_owner_cannot_delete_or_update_witness :
    deleteOne sampleStore "u2" "p1" = ⟨sampleStore, [], .failed 400 "此 post ID並非屬於你！"⟩ ∧
    updateOne sampleCollaborators sampleStore "u2" "p1" ⟨some "mine", some "u2", none⟩ =
      ⟨sampleStore, [], .failed 400 "此 post ID並非屬於你！"⟩ :=
  ⟨(non_owner_cannot_delete_or_update sampleCollaborators sampleStore "u2" "p1"
      ⟨some "mine", some "u2", none⟩ ⟨"p1", "hello", "u1", 5⟩ (by decide) (by decide)).1,
   (non_owner_cannot_delete_or_update sampleCollaborators sampleStore "u2" "p1"
      ⟨some "mine", some "u2", none⟩ ⟨"p1", "hello", "u1", 5⟩ (by decide) (by decide)).2.1⟩

theorem ownerFilter_holds (userId : String) (p : Post) :
    PostFilter.holds { content := none, user := some userId } p = decide (p.user = userId) := by
  simp [PostFilter.holds]

/-- C4: `deleteAll` under the path "/posts", called twice in a row, succeeds both
times with an empty `posts` list, and the second call leaves the store as the first
call left it. -/
theorem deleteAll_idempotent (s : Store) (userId : String) :
    (deleteAll s userId "/posts").response = .json 200 (.remaining []) ∧
    (deleteAll (deleteAll s userId "/posts").store userId "/posts").response =
      .json 200 (.remaining []) ∧
    (deleteAll (deleteAll s userId "/posts").store userId "/posts").store =
      (deleteAll s userId "/posts").store := by
  have key : ∀ t : Store, find (deleteMany t { content := none, user := some userId })
      { content := none, user := some userId } = [] := by
    intro t
    simp [find, deleteMany, List.filter_filter, ownerFilter_holds]
  refine ⟨?_, ?_, ?_⟩
  · simp [deleteAll, key]
  · simp [deleteAll, key]
  · simp [deleteAll, deleteMany, List.filter_filter]

/-- C5: when `originalUrl` is not exactly "/posts", `deleteAll` answers with the 400
error and returns the store it was given, so no post is removed; the handler changes
the store only when `originalUrl` is exactly "/posts". -/
theorem deleteAll_guard (s : Store) (userId originalUrl : String) :
    (originalUrl ≠ "/posts" →
      deleteAll s userId originalUrl = ⟨s, [],
        .failed 400 "刪除全部的路由為\x27posts\x27而不是\x27posts/\x27，這是避免刪除單筆的錯誤操作"⟩) ∧
    ((deleteAll s userId originalUrl).store ≠ s → originalUrl = "/posts") := by
  have h1 : originalUrl ≠ "/posts" →
      deleteAll s userId originalUrl = ⟨s, [],
        .failed 400 "刪除全部的路由為\x27posts\x27而不是\x27posts/\x27，這是避免刪除單筆的錯誤操作"⟩ := by
    intro h
    simp [deleteAll, h, appError]
  refine ⟨h1, ?_⟩
  intro h
  by_contra hn
  rw [h1 hn] at h
  exact h rfl

/-- Witness for C5: the paths "/posts/" and "/posts?x=1" on the sample store. -/
theorem deleteAll_guard_witness :
    deleteAll sampleStore "u1" "/posts/" = ⟨sampleStore, [],
        .failed 400 "刪除全部的路由為\x27posts\x27而不是\x27posts/\x27，這是避免刪除單筆的錯誤操作"⟩ ∧
    deleteAll sampleStore "u1" "/posts?x=1" = ⟨sampleStore, [],
        .failed 400 "刪除全部的路由為\x27posts\x27而不是\x27posts/\x27，這是避免刪除單筆的錯誤操作"⟩ :=
  ⟨(deleteAll_guard sampleStore "u1" "/posts/").1 (by decide),
   (deleteAll_guard sampleStore "u1" "/posts?x=1").1 (by decide)⟩

theorem eraseP_eq_erase_of_find {l : List Post} {id : String} {p : Post}
    (h : l.find? (fun q => decide (q.id = id)) = some p) :
    l.eraseP (fun q => decide (q.id = id)) = l.erase p := by
  induction l with
  | nil => simp at h
  | cons a as ih =>
    by_cases ha : a.id = id
    · simp [List.find?_cons, ha] at h
      subst h
      simp [List.eraseP_cons, ha]
    · simp [List.find?_cons, ha] at h
      have hpa : a ≠ p := by
        rintro rfl
        have := List.find?_some h
        simp at this
        exact ha this
      have hpa' : (a == p) = false := by simpa using hpa
      rw [List.eraseP_cons, List.erase_cons, ih h]
      simp [ha, hpa']

/-- C6: a successful `deleteAll` keeps exactly the posts whose owner is not the caller
(so it removes exactly the caller's posts) and leaves the users alone.  A successful
`deleteOne` found a post `p` with the given id whose owner is the caller and removes
exactly that one post: the posts before are `p` plus the posts after, every post of
another user and every post with another id is still there, and no post appears. -/
theorem delete_only_own_posts (s : Store) (userId : String) :
    (∀ originalUrl body, (deleteAll s userId originalUrl).response = .json 200 body →
      (deleteAll s userId originalUrl).store.posts =
          s.posts.filter (fun p => decide (p.user ≠ userId)) ∧
        (deleteAll s userId originalUrl).store.users = s.users ∧
        ∀ p, p ∈ (deleteAll s userId originalUrl).store.posts ↔ (p ∈ s.posts ∧ p.user ≠ userId)) ∧
    (∀ id body, (deleteOne s userId id).response = .json 200 body →
      ∃ p, findById s id = some p ∧ p ∈ s.posts ∧ p.id = id ∧ p.user = userId ∧
        (deleteOne s userId id).store.posts = s.posts.erase p ∧
        (deleteOne s userId id).store.users = s.users ∧
        s.posts.Perm (p :: (deleteOne s userId id).store.posts) ∧
        (∀ q ∈ s.posts, q.user ≠ userId → q ∈ (deleteOne s userId id).store.posts) ∧
        (∀ q ∈ s.posts, q.id ≠ id → q ∈ (deleteOne s userId id).store.posts) ∧
        (∀ q ∈ (deleteOne s userId id).store.posts, q ∈ s.posts)) := by
  constructor
  · intro originalUrl body h
    by_cases hu : originalUrl = "/posts"
    · subst hu
      have hs : (deleteAll s userId "/posts").store.posts =
          s.posts.filter (fun p => decide (p.user ≠ userId)) := by
        simp [deleteAll, deleteMany, ownerFilter_holds]
      refine ⟨hs, by simp [deleteAll, deleteMany], ?_⟩
      intro p
      rw [hs]
      simp
    · simp [deleteAll, hu, appError] at h
  · intro id body h
    cases hf : findById s id with
    | none => simp [deleteOne, hf, appError] at h
    | some p =>
      by_cases ho : p.user = userId
      swap
      · simp [deleteOne, hf, ho, appError] at h
      have hmem : p ∈ s.posts := List.mem_of_find?_eq_some hf
      have hid : p.id = id := by simpa using List.find?_some hf
      have hs : (deleteOne s userId id).store.posts = s.posts.erase p := by
        simp only [deleteOne, hf, ho]
        simp [findByIdAndDelete]
        exact eraseP_eq_erase_of_find hf
      refine ⟨p, rfl, hmem, hid, ho, hs, ?_, ?_, ?_, ?_, ?_⟩
      · simp [deleteOne, hf, ho, findByIdAndDelete]
      · rw [hs]
        exact List.perm_cons_erase hmem
      · intro q hq hqu
        rw [hs]
        exact (List.mem_erase_of_ne (by rintro rfl; exact hqu ho)).2 hq
      · intro q hq hqi
        rw [hs]
        exact (List.mem_erase_of_ne (by rintro rfl; exact hqi hid)).2 hq
      · intro q hq
        rw [hs] at hq
        exact List.mem_of_mem_erase hq

/-- Witness for C6: user u1 deletes all posts, and deletes post p1, in the sample store. -/
theorem delete_only_own_posts_witness :
    (deleteAll sampleStore "u1" "/posts").store.posts = [⟨"p3", "hello", "u2", 4⟩] ∧
    ∃ p, findById sampleStore "p1" = some p ∧ p ∈ sampleStore.posts ∧ p.id = "p1" ∧
        p.user = "u1" ∧
        (deleteOne sampleStore "u1" "p1").store.posts = sampleStore.posts.erase p ∧
        (deleteOne sampleStore "u1" "p1").store.users = sampleStore.users ∧
        sampleStore.posts.Perm (p :: (deleteOne sampleStore "u1" "p1").store.posts) ∧
        (∀ q ∈ sampleStore.posts, q.user ≠ "u1" →
          q ∈ (deleteOne sampleStore "u1" "p1").store.posts) ∧
        (∀ q ∈ sampleStore.posts, q.id ≠ "p1" →
          q ∈ (deleteOne sampleStore "u1" "p1").store.posts) ∧
        (∀ q ∈ (deleteOne sampleStore "u1" "p1").store.posts, q ∈ sampleStore.posts) :=
  ⟨((delete_only_own_posts sampleStore "u1").1 "/posts" (.remaining []) (by decide)).1.trans
      (by decide),
   (delete_only_own_posts sampleStore "u1").2 "p1" .deleted (by decide)⟩

/-! ## list -/

theorem sort_perm (spec : String) (ps : List Post) : (sort spec ps).Perm ps := by
  unfold sort
  split_ifs
  · exact List.perm_insertionSort _ _
  · exact List.perm_insertionSort _ _
  · exact List.Perm.refl _

theorem sort_asc (ps : List Post) :
    (sort "createdAt" ps).Sorted (fun a b => a.createdAt ≤ b.createdAt) := by
  simp only [sort, if_true]
  exact List.sorted_insertionSort _ _

theorem sort_desc (ps : List Post) :
    (sort "-createdAt" ps).Sorted (fun a b => b.createdAt ≤ a.createdAt) := by
  have h : ("-createdAt" : String) ≠ "createdAt" := by decide
  simp only [sort, if_neg h, if_true]
  exact List.sorted_insertionSort _ _

theorem map_post_map_populate (s : Store) (ps : List Post) :
    (ps.map (populate s)).map (fun r => r.post) = ps := by
  have h : ((fun r : PopulatedPost => r.post) ∘ populate s) = id := by
    funext p
    rfl
  rw [List.map_map, h, List.map_id]

/-- The pattern `(` is rejected by `newRegExp` itself, whatever the engine. -/
theorem newRegExp_unterminated_group (C : Collaborators) :
    newRegExp C "(" = .error .syntaxError := by
  have h1 : isPlainChar '(' = false := by decide
  have h2 : parenBalanced ['('] 0 = false := by decide
  simp [newRegExp, h1, h2]

/-- A pattern of plain characters matches exactly the contents that contain it. -/
theorem newRegExp_plain (C : Collaborators) (source : String)
    (h : source.toList.all isPlainChar = true) :
    newRegExp C source = .ok (fun content => decide (source.toList <:+: content.toList)) := by
  simp only [newRegExp, h, if_true]

/-- What `list` computes once the content key of the filter is known. -/
theorem list_eq_of_filter (C : Collaborators) (s : Store) (userId : String) (q timeSort : Field)
    (keep : String → Bool)
    (h : (q = none ∧ keep = fun _ => true) ∨ (∃ src, q = some src ∧ newRegExp C src = .ok keep)) :
    list C s userId ⟨q, timeSort⟩ = ⟨s, [], .json 200 (.listed
      ((sort (if timeSort = some "asc" then "createdAt" else "-createdAt")
        (s.posts.filter (fun p => keep p.content && decide (p.user = userId)))).map
          (populate s)))⟩ := by
  rcases h with ⟨rfl, rfl⟩ | ⟨src, rfl, hre⟩
  · have hf : PostFilter.holds { content := none, user := some userId } =
        fun p => (fun _ => true) p.content && decide (p.user = userId) := by
      funext p
      simp [PostFilter.holds]
    simp only [list, find, assignUser, hf]
  · have hf : PostFilter.holds { content := some keep, user := some userId } =
        fun p => keep p.content && decide (p.user = userId) := by
      funext p
      simp [PostFilter.holds]
    simp only [list, find, assignUser, hre, hf]

/-- The list `list` returns when the pattern is absent or compiles to `keep`. -/
theorem list_of_keep (C : Collaborators) (s : Store) (userId : String) (q timeSort : Field)
    (keep : String → Bool)
    (h : (q = none ∧ keep = fun _ => true) ∨ (∃ src, q = some src ∧ newRegExp C src = .ok keep)) :
    ∃ ps, list C s userId ⟨q, timeSort⟩ = ⟨s, [], .json 200 (.listed ps)⟩ ∧
      ps = (ps.map (fun r => r.post)).map (populate s) ∧
      (ps.map (fun r => r.post)).Perm
        (s.posts.filter (fun p => decide (p.user = userId) && keep p.content)) ∧
      (∀ r ∈ ps, r.post ∈ s.posts ∧ r.post.user = userId ∧ keep r.post.content = true) ∧
      (∀ p ∈ s.posts, p.user = userId → keep p.content = true →
        p ∈ ps.map (fun r => r.post)) ∧
      (timeSort = some "asc" →
        (ps.map (fun r => r.post)).Sorted (fun a b => a.createdAt ≤ b.createdAt)) ∧
      (timeSort ≠ some "asc" →
        (ps.map (fun r => r.post)).Sorted (fun a b => b.createdAt ≤ a.createdAt)) := by
  refine ⟨_, list_eq_of_filter C s userId q timeSort keep h, ?_⟩
  rw [map_post_map_populate]
  have hperm := sort_perm (if timeSort = some "asc" then "createdAt" else "-createdAt")
    (s.posts.filter (fun p => keep p.content && decide (p.user = userId)))
  have hfilter : (fun p : Post => keep p.content && decide (p.user = userId)) =
      (fun p => decide (p.user = userId) && keep p.content) := by
    funext p
    exact Bool.and_comm _ _
  rw [hfilter] at hperm ⊢
  refine ⟨rfl, hperm, ?_, ?_, ?_, ?_⟩
  · intro r hr
    obtain ⟨p, hp, rfl⟩ := List.mem_map.1 hr
    have := hperm.mem_iff.1 hp
    simpa [populate, and_assoc] using this
  · intro p hp hu hk
    exact hperm.mem_iff.2 (by simp [hp, hu, hk])
  · intro ht
    rw [if_pos ht]
    exact sort_asc _
  · intro ht
    rw [if_neg ht]
    exact sort_desc _

/-- C7 (amended): when `q` is absent, or is a pattern `new RegExp` accepts, `list`
returns, populated, exactly the posts of the store whose owner is the caller and
(with `q` present) whose content the pattern matches, each as often as the store holds
it; no post of another user is returned.  The result is ordered by creation time,
ascending when `timeSort` is "asc" and descending for every other or missing value.
When `new RegExp(q)` throws, the handler throws as well: it sends no list and leaves
the store alone. -/
theorem list_returns_own_matching_posts (C : Collaborators) (s : Store) (userId : String)
    (q timeSort : Field) :
    (∀ keep : String → Bool,
      ((q = none ∧ keep = fun _ => true) ∨ (∃ src, q = some src ∧ newRegExp C src = .ok keep)) →
      ∃ ps, list C s userId ⟨q, timeSort⟩ = ⟨s, [], .json 200 (.listed ps)⟩ ∧
        ps = (ps.map (fun r => r.post)).map (populate s) ∧
        (ps.map (fun r => r.post)).Perm
          (s.posts.filter (fun p => decide (p.user = userId) && keep p.content)) ∧
        (∀ r ∈ ps, r.post ∈ s.posts ∧ r.post.user = userId ∧ keep r.post.content = true) ∧
        (∀ p ∈ s.posts, p.user = userId → keep p.content = true →
          p ∈ ps.map (fun r => r.post)) ∧
        (timeSort = some "asc" →
          (ps.map (fun r => r.post)).Sorted (fun a b => a.createdAt ≤ b.createdAt)) ∧
        (timeSort ≠ some "asc" →
          (ps.map (fun r => r.post)).Sorted (fun a b => b.createdAt ≤ a.createdAt))) ∧
    (∀ src e, q = some src → newRegExp C src = .error e →
      list C s userId ⟨q, timeSort⟩ = ⟨s, [], .rejected e⟩) := by
  refine ⟨fun keep h => list_of_keep C s userId q timeSort keep h, ?_⟩
  rintro src e rfl he
  simp [list, he]

/-- Witness for C7: the posts of u1 that contain "ell", oldest first, in the sample store. -/
theorem list_returns_own_matching_posts_witness :
    ∃ ps, list sampleCollaborators sampleStore "u1" ⟨some "ell", some "asc"⟩ =
        ⟨sampleStore, [], .json 200 (.listed ps)⟩ ∧
      ps = (ps.map (fun r => r.post)).map (populate sampleStore) ∧
      (ps.map (fun r => r.post)).Perm
        (sampleStore.posts.filter (fun p => decide (p.user = "u1") &&
          (fun content => decide ("ell".toList <:+: content.toList)) p.content)) ∧
      (∀ r ∈ ps, r.post ∈ sampleStore.posts ∧ r.post.user = "u1" ∧
        (fun content => decide ("ell".toList <:+: content.toList)) r.post.content = true) ∧
      (∀ p ∈ sampleStore.posts, p.user = "u1" →
        (fun content => decide ("ell".toList <:+: content.toList)) p.content = true →
        p ∈ ps.map (fun r => r.post)) ∧
      (some "asc" = some "asc" →
        (ps.map (fun r => r.post)).Sorted (fun a b => a.createdAt ≤ b.createdAt)) ∧
      ((some "asc" : Field) ≠ some "asc" →
        (ps.map (fun r => r.post)).Sorted (fun a b => b.createdAt ≤ a.createdAt)) :=
  (list_returns_own_matching_posts sampleCollaborators sampleStore "u1" (some "ell")
      (some "asc")).1
    (fun content => decide ("ell".toList <:+: content.toList)) (Or.inr ⟨"ell", rfl, rfl⟩)

/-- Counterexample to C7 as stated: for the query q = "(" the handler sends no list;
`new RegExp("(")` throws a SyntaxError, which is forwarded as an error. -/
theorem list_throws_on_unterminated_group :
    list sampleCollaborators sampleStore "u1" ⟨some "(", none⟩ =
        ⟨sampleStore, [], .rejected .syntaxError⟩ ∧
      ¬ ∃ ps, (list sampleCollaborators sampleStore "u1" ⟨some "(", none⟩).response =
        .json 200 (.listed ps) := by
  have h : list sampleCollaborators sampleStore "u1" ⟨some "(", none⟩ =
      ⟨sampleStore, [], .rejected .syntaxError⟩ := by decide
  refine ⟨h, ?_⟩
  rintro ⟨ps, hps⟩
  rw [h] at hps
  cases hps

/-! ## create -/

/-- Counterexample to C3 as stated: in the sample store u1 already has a post "hello";
after u1 creates another post "hello", the list holds two posts with that content
owned by u1, not exactly one. -/
theorem create_then_list_two_posts_same_content :
    ∃ ps, (list sampleCollaborators (create sampleStore "u1" "p4" 9 (some "hello")).store "u1"
          ⟨none, none⟩).response = .json 200 (.listed ps) ∧
      (ps.filter (fun r => decide (r.post.content = "hello" ∧ r.post.user = "u1"))).length = 2 :=
  ⟨_, rfl, by decide⟩

/-- C3 (amended): `create` with a defined content succeeds with status 201 and appends
the new post; a `list` with no `q` right after it succeeds, returns only posts of the
caller, includes the new post, and holds exactly one more post with that content owned
by the caller than the store held before the create.  So it holds exactly one such
post when the caller had no post with that content before. -/
theorem create_then_list_adds_one (C : Collaborators) (s : Store) (userId newId : String)
    (now : Nat) (c : String) (timeSort : Field) :
    ∃ ps,
      create s userId newId now (some c) =
        ⟨{ s with posts := s.posts ++ [⟨newId, c, userId, now⟩] }, [],
          .json 201 (.created ⟨newId, c, userId, now⟩)⟩ ∧
      list C (create s userId newId now (some c)).store userId ⟨none, timeSort⟩ =
        ⟨(create s userId newId now (some c)).store, [], .json 200 (.listed ps)⟩ ∧
      (⟨newId, c, userId, now⟩ : Post) ∈ ps.map (fun r => r.post) ∧
      (∀ r ∈ ps, r.post.user = userId) ∧
      ps.countP (fun r => decide (r.post.content = c ∧ r.post.user = userId)) =
        s.posts.countP (fun p => decide (p.content = c ∧ p.user = userId)) + 1 ∧
      ((∀ p ∈ s.posts, p.user = userId → p.content ≠ c) →
        ps.countP (fun r => decide (r.post.content = c ∧ r.post.user = userId)) = 1) := by
  have hc : create s userId newId now (some c) =
      ⟨{ s with posts := s.posts ++ [⟨newId, c, userId, now⟩] }, [],
        .json 201 (.created ⟨newId, c, userId, now⟩)⟩ := by
    simp [create, createPost]
  obtain ⟨ps, hl, -, hperm, hall, hmem, -, -⟩ :=
    list_of_keep C (create s userId newId now (some c)).store userId none
      timeSort (fun _ => true) (Or.inl ⟨rfl, rfl⟩)
  have hcount : ps.countP (fun r => decide (r.post.content = c ∧ r.post.user = userId)) =
      s.posts.countP (fun p => decide (p.content = c ∧ p.user = userId)) + 1 := by
    have h1 : ps.countP (fun r => decide (r.post.content = c ∧ r.post.user = userId)) =
        (ps.map (fun r => r.post)).countP (fun p => decide (p.content = c ∧ p.user = userId)) := by
      rw [List.countP_map]
      rfl
    rw [h1, hperm.countP_eq, hc]
    simp only [List.countP_filter, List.filter_append, List.countP_append]
    have h2 : ∀ l : List Post,
        l.countP (fun a => decide (a.content = c ∧ a.user = userId) &&
          (decide (a.user = userId) && (fun _ => true) a.content)) =
        l.countP (fun p => decide (p.content = c ∧ p.user = userId)) := by
      intro l
      apply List.countP_congr
      intro p _
      simp
    rw [h2, h2]
    simp
  refine ⟨ps, hc, hl, ?_, fun r hr => (hall r hr).2.1, hcount, ?_⟩
  · apply hmem
    · rw [hc]
      simp
    · rfl
    · rfl
  · intro hnone
    rw [hcount]
    have : s.posts.countP (fun p => decide (p.content = c ∧ p.user = userId)) = 0 := by
      rw [List.countP_eq_zero]
      intro p hp
      simp only [decide_eq_true_eq, not_and]
      intro h1 h2
      exact hnone p hp h2 h1
    rw [this]

/-- Witness for C3: u2 has no post "world" in the sample store; after creating one, the
list holds exactly one. -/
theorem create_then_list_adds_one_witness :
    ∃ ps,
      create sampleStore "u2" "p4" 9 (some "world") =
        ⟨{ sampleStore with posts := sampleStore.posts ++ [⟨"p4", "world", "u2", 9⟩] }, [],
          .json 201 (.created ⟨"p4", "world", "u2", 9⟩)⟩ ∧
      list sampleCollaborators (create sampleStore "u2" "p4" 9 (some "world")).store "u2"
          ⟨none, none⟩ =
        ⟨(create sampleStore "u2" "p4" 9 (some "world")).store, [], .json 200 (.listed ps)⟩ ∧
      ps.countP (fun r => decide (r.post.content = "world" ∧ r.post.user = "u2")) = 1 := by
  obtain ⟨ps, h1, h2, -, -, -, h3⟩ :=
    create_then_list_adds_one sampleCollaborators sampleStore "u2" "p4" 9 "world" none
  exact ⟨ps, h1, h2, h3 (by decide)⟩

/-! ## updateOne -/

end PostsApi
